import Mathlib

/-!
Verification of the CodeGraph analysis pipeline.

This file gives a shallow embedding, in Lean 4, of the parts of the
CodeGraph repository that the checked claims are about:

* `IdGenerator` — `src/python_analyzer_service/id_generator.py`
  (`generate_global_id` and a faithful SHA-256 over byte lists, matching
  Python's `hashlib.sha256(...).hexdigest()` on UTF-8 input).
* `FileWatcher` — `src/services/file_watcher_service/main.py`
  (`FileChangeHandler._should_process_now`, the debounce table).
* `PythonAnalyzer` — `src/services/analyzers/python_analyzer/main.py`
  (`process_message`: the deletion / parse-failure branches and the
  external-node synthesis and relationship filtering before publishing).
* `IngestionWorker` — `src/services/ingestion_worker/main.py`
  (`ingest_nodes`, `ingest_relationships`, pending-relationship
  resolution, `delete_nodes`, `delete_relationships`, `process_message`),
  over an explicit graph-store state (nodes, typed edges,
  PendingRelationship records).
* `Resolution` — `src/api_gateway/orchestration_logic/resolution.py` and
  `helpers.py` (`resolve_cross_language_heuristics`, `parse_sql_query`).

Machine integers are modelled as `Nat` with explicit `% 2^32` where
overflow matters; fallible paths return `Option`.  Python dictionaries
are modelled as association lists or as update-closures (insertion with
overwrite), and Python sets as first-occurrence-deduplicated lists;
where the source iterates a set, only membership in the produced list is
used, never its order.
-/

namespace IdGenerator

/-- Arithmetic modulus for 32-bit words. -/
def M32 : Nat := 4294967296

/-- 32-bit addition (mod 2^32). -/
def add32 (a b : Nat) : Nat := (a + b) % M32

/-- 32-bit exclusive or. -/
def xor32 (a b : Nat) : Nat := Nat.xor a b

/-- 32-bit and. -/
def and32 (a b : Nat) : Nat := Nat.land a b

/-- 32-bit complement (operands are kept < 2^32 throughout). -/
def not32 (a : Nat) : Nat := Nat.xor a 4294967295

/-- Right rotation of a 32-bit word by `n` places. -/
def rotr (n a : Nat) : Nat := ((a >>> n) ||| (a <<< (32 - n))) % M32

/-- SHA-256 round constants (FIPS 180-4). -/
def K : List Nat :=
  [1116352408, 1899447441, 3049323471, 3921009573, 961987163, 1508970993,
   2453635748, 2870763221, 3624381080, 310598401, 607225278, 1426881987,
   1925078388, 2162078206, 2614888103, 3248222580, 3835390401, 4022224774,
   264347078, 604807628, 770255983, 1249150122, 1555081692, 1996064986,
   2554220882, 2821834349, 2952996808, 3210313671, 3336571891, 3584528711,
   113926993, 338241895, 666307205, 773529912, 1294757372, 1396182291,
   1695183700, 1986661051, 2177026350, 2456956037, 2730485921, 2820302411,
   3259730800, 3345764771, 3516065817, 3600352804, 4094571909, 275423344,
   430227734, 506948616, 659060556, 883997877, 958139571, 1322822218,
   1537002063, 1747873779, 1955562222, 2024104815, 2227730452, 2361852424,
   2428436474, 2756734187, 3204031479, 3329325298]

/-- SHA-256 compression state: eight 32-bit working words. -/
structure HashState where
  h0 : Nat
  h1 : Nat
  h2 : Nat
  h3 : Nat
  h4 : Nat
  h5 : Nat
  h6 : Nat
  h7 : Nat
deriving Repr, DecidableEq

/-- SHA-256 initial hash value (FIPS 180-4). -/
def initialState : HashState :=
  ⟨1779033703, 3144134277, 1013904242, 2773480762,
   1359893119, 2600822924, 528734635, 1541459225⟩

/-- Lower-case sigma-0 message schedule function. -/
def ssig0 (x : Nat) : Nat := xor32 (xor32 (rotr 7 x) (rotr 18 x)) (x >>> 3)

/-- Lower-case sigma-1 message schedule function. -/
def ssig1 (x : Nat) : Nat := xor32 (xor32 (rotr 17 x) (rotr 19 x)) (x >>> 10)

/-- Upper-case sigma-0 round function. -/
def bsig0 (x : Nat) : Nat := xor32 (xor32 (rotr 2 x) (rotr 13 x)) (rotr 22 x)

/-- Upper-case sigma-1 round function. -/
def bsig1 (x : Nat) : Nat := xor32 (xor32 (rotr 6 x) (rotr 11 x)) (rotr 25 x)

/-- The choice function of the round. -/
def ch (e f g : Nat) : Nat := xor32 (and32 e f) (and32 (not32 e) g)

/-- The majority function of the round. -/
def maj (a b c : Nat) : Nat :=
  xor32 (xor32 (and32 a b) (and32 a c)) (and32 b c)

/-- Big-endian 4-byte grouping of a byte list into 32-bit words. -/
def bytesToWords : List Nat → List Nat
  | a :: b :: c :: d :: rest => (((a * 256 + b) * 256 + c) * 256 + d) :: bytesToWords rest
  | _ => []

/-- Extend 16 schedule words by `n` further words. -/
def extendSchedule (w : List Nat) : Nat → List Nat
  | 0 => w
  | n + 1 =>
      let t := w.length
      let nw := add32 (add32 (ssig1 (w.getD (t - 2) 0)) (w.getD (t - 7) 0))
                      (add32 (ssig0 (w.getD (t - 15) 0)) (w.getD (t - 16) 0))
      extendSchedule (w ++ [nw]) n

/-- One SHA-256 round. -/
def round32 (st : HashState) (kw : Nat × Nat) : HashState :=
  let t1 := add32 (add32 (add32 st.h7 (bsig1 st.h4)) (ch st.h4 st.h5 st.h6))
                  (add32 kw.1 kw.2)
  let t2 := add32 (bsig0 st.h0) (maj st.h0 st.h1 st.h2)
  ⟨add32 t1 t2, st.h0, st.h1, st.h2, add32 st.h3 t1, st.h4, st.h5, st.h6⟩

/-- Compress one 16-word block into the running state. -/
def compressBlock (st : HashState) (block : List Nat) : HashState :=
  let w := extendSchedule block 48
  let r := (K.zip w).foldl round32 st
  ⟨add32 st.h0 r.h0, add32 st.h1 r.h1, add32 st.h2 r.h2, add32 st.h3 r.h3,
   add32 st.h4 r.h4, add32 st.h5 r.h5, add32 st.h6 r.h6, add32 st.h7 r.h7⟩

/-- Big-endian 8-byte encoding of the bit length. -/
def lenBytes (bitLen : Nat) : List Nat :=
  [bitLen / 72057594037927936 % 256, bitLen / 281474976710656 % 256,
   bitLen / 1099511627776 % 256, bitLen / 4294967296 % 256,
   bitLen / 16777216 % 256, bitLen / 65536 % 256,
   bitLen / 256 % 256, bitLen % 256]

/-- SHA-256 padding: append 0x80, zeros to 56 mod 64, then the bit length. -/
def padMessage (msg : List Nat) : List Nat :=
  let len := msg.length
  let z := (119 - len % 64) % 64
  msg ++ [128] ++ List.replicate z 0 ++ lenBytes (8 * len)

/-- Split a word list into 16-word chunks. -/
def chunk16 : List Nat → List (List Nat)
  | [] => []
  | x :: xs => ((x :: xs).take 16) :: chunk16 ((x :: xs).drop 16)
termination_by l => l.length
decreasing_by
  simp only [List.drop, List.length_drop, List.length_cons]
  omega

/-- Big-endian byte decomposition of a 32-bit word. -/
def wordToBytes (w : Nat) : List Nat :=
  [w / 16777216 % 256, w / 65536 % 256, w / 256 % 256, w % 256]

/-- The 32 digest bytes of a final hash state. -/
def stateToBytes (st : HashState) : List Nat :=
  wordToBytes st.h0 ++ wordToBytes st.h1 ++ wordToBytes st.h2 ++ wordToBytes st.h3 ++
  wordToBytes st.h4 ++ wordToBytes st.h5 ++ wordToBytes st.h6 ++ wordToBytes st.h7

/-- SHA-256 of a byte list, as its 32 digest bytes.  This is the embedding
of Python's `hashlib.sha256` used by `generate_global_id`. -/
def sha256 (msg : List Nat) : List Nat :=
  stateToBytes ((chunk16 (bytesToWords (padMessage msg))).foldl compressBlock initialState)

/-- The sixteen lower-case hexadecimal digits. -/
def hexAlphabet : List Char := "0123456789abcdef".data

/-- The lower-case hex character of a nibble. -/
def hexChar (n : Nat) : Char := hexAlphabet.getD (n % 16) '0'

/-- The two lower-case hex characters of a byte. -/
def byteToHex (b : Nat) : List Char := [hexChar (b / 16), hexChar b]

/-- Lower-case hex string of a byte list — the embedding of `hexdigest()`. -/
def hexDigest (bs : List Nat) : String := String.mk (bs.flatMap byteToHex)

/-- UTF-8 encoding of one scalar value, as Python's `str.encode` produces. -/
def utf8EncodeChar (c : Char) : List Nat :=
  let n := c.toNat
  if n < 128 then [n]
  else if n < 2048 then [192 + n / 64, 128 + n % 64]
  else if n < 65536 then [224 + n / 4096, 128 + n / 64 % 64, 128 + n % 64]
  else [240 + n / 262144, 128 + n / 4096 % 64, 128 + n / 64 % 64, 128 + n % 64]

/-- UTF-8 encoding of a string, the embedding of `.encode('utf-8')`. -/
def utf8Encode (s : String) : List Nat := s.data.flatMap utf8EncodeChar

/-- Embedding of `id_generator.generate_global_id`: the input string that is
hashed is the canonical identifier alone (the `relative_path` argument is
accepted but unused, exactly as in the source), and the result is the
language tag, a colon, and the lower-case hex SHA-256 digest. -/
def generate_global_id (language : String) (relative_path : String)
    (canonical_identifier : String) : String :=
  language ++ ":" ++ hexDigest (sha256 (utf8Encode canonical_identifier))

/-- Embedding of `id_generator.normalize_path`. -/
def normalize_path (relative_path : String) : String :=
  let fwd := String.mk (relative_path.data.map (fun c => if c = '\\' then '/' else c))
  let stripped := if fwd.startsWith "./" then fwd.drop 2 else fwd
  stripped.toLower

end IdGenerator

namespace FileWatcher

/-- Debounce window in milliseconds (`DEBOUNCE_MS`, default 500). -/
def DEBOUNCE_MS : Int := 500

/-- The handler's mutable state: the per-file timestamp table
(`self.file_timestamps`), a dictionary from absolute path to the time of
the last seen event in milliseconds. -/
structure WatchState where
  file_timestamps : List (String × Int)
deriving Repr, DecidableEq

/-- Dictionary lookup in the timestamp table. -/
def lookupTs : List (String × Int) → String → Option Int
  | [], _ => none
  | (k, v) :: rest, p => if k = p then some v else lookupTs rest p

/-- Dictionary assignment `table[path] = t` (overwrite or insert). -/
def setTs : List (String × Int) → String → Int → List (String × Int)
  | [], p, t => [(p, t)]
  | (k, v) :: rest, p, t =>
      if k = p then (k, t) :: rest else (k, v) :: setTs rest p t

/-- Dictionary deletion `del table[path]` (no-op when absent). -/
def delTs : List (String × Int) → String → List (String × Int)
  | [], _ => []
  | (k, v) :: rest, p => if k = p then rest else (k, v) :: delTs rest p

/-- Embedding of `FileChangeHandler._should_process_now`.  `current_time`
stands for `time.time() * 1000`.  Returns whether the event is processed
(emitted) together with the updated state.  A `DELETED` event clears the
entry and is always processed; a first event for a path records the time
and is NOT processed; a later event is processed only when at least
`DEBOUNCE_MS` elapsed since the previously recorded event. -/
def should_process_now (st : WatchState) (file_path : String)
    (event_type : String) (current_time : Int) : Bool × WatchState :=
  if event_type = "DELETED" then
    (true, ⟨delTs st.file_timestamps file_path⟩)
  else
    match lookupTs st.file_timestamps file_path with
    | none => (false, ⟨setTs st.file_timestamps file_path current_time⟩)
    | some last_time =>
        let time_diff := current_time - last_time
        (time_diff ≥ DEBOUNCE_MS, ⟨setTs st.file_timestamps file_path current_time⟩)

/-- Run a sequence of `MODIFIED` events on one path at the given times,
counting how many are processed (i.e. how many jobs are emitted). -/
def countModifiedEmitted (st : WatchState) (file_path : String) :
    List Int → Nat
  | [] => 0
  | t :: ts =>
      let (emitted, st') := should_process_now st file_path "MODIFIED" t
      (if emitted then 1 else 0) + countModifiedEmitted st' file_path ts

/-- Consecutive gaps of a timestamp list are all below the debounce window. -/
def GapsBelowDebounce : List Int → Prop
  | [] => True
  | [_] => True
  | a :: b :: rest => b - a < DEBOUNCE_MS ∧ GapsBelowDebounce (b :: rest)

end FileWatcher

namespace PythonAnalyzer

/-- A node dictionary as built by `PythonAstVisitor` (keys `type`, `name`,
`path`, `parent_canonical_id`, `canonical_id`, `gid`; absent keys are
modelled as the empty string, matching the dictionaries' `.get(k, '')`
reads downstream). -/
structure PyNode where
  ntype : String
  name : String
  path : String
  parent_canonical_id : String
  canonical_id : String
  gid : String
deriving Repr, DecidableEq

/-- A relationship dictionary as built by `PythonAstVisitor`
(`source_canonical_id`, `target_canonical_id`, `type`). -/
structure PyRel where
  source_canonical_id : String
  target_canonical_id : String
  rtype : String
deriving Repr, DecidableEq

/-- `AnalysisNodeStub` of `shared/models/python/models.py`. -/
structure AnalysisNodeStub where
  gid : String
  canonical_id : String
  name : String
  file_path : String
  language : String
  labels : List String
deriving Repr, DecidableEq

/-- `AnalysisRelationshipStub` of `shared/models/python/models.py`. -/
structure AnalysisRelationshipStub where
  source_gid : String
  target_canonical_id : String
  rtype : String
deriving Repr, DecidableEq

/-- `AnalyzerResultPayload` of `shared/models/python/models.py` (the
fields `process_message` populates; `error`, `nodes_deleted` and
`relationships_deleted` keep their model defaults). -/
structure AnalyzerResultPayload where
  file_path : String
  language : String
  error : Option String := none
  nodes_upserted : List AnalysisNodeStub := []
  relationships_upserted : List AnalysisRelationshipStub := []
  nodes_deleted : List String := []
deriving Repr, DecidableEq

/-- Embedding of `create_analysis_node_stubs`. -/
def create_analysis_node_stubs (nodes : List PyNode) : List AnalysisNodeStub :=
  nodes.map fun n =>
    { gid := n.gid, canonical_id := n.canonical_id, name := n.name,
      file_path := n.path, language := "python", labels := [n.ntype] }

/-- Embedding of `create_analysis_relationship_stubs`: note the source
identifier placed in `source_gid` is the relationship's
`source_canonical_id`, exactly as in the source. -/
def create_analysis_relationship_stubs (rels : List PyRel) :
    List AnalysisRelationshipStub :=
  rels.map fun r =>
    { source_gid := r.source_canonical_id,
      target_canonical_id := r.target_canonical_id, rtype := r.rtype }

/-- First-occurrence deduplication, modelling Python's `set(...)` where
only membership in the result is used. -/
def dedup : List String → List String
  | [] => []
  | x :: xs => if x ∈ dedup xs then dedup xs else x :: dedup xs

/-- The synthetic external node built for a missing relationship target
`t`: the dictionary comprehension drops empty values and the following
filter keeps the node only when `type`, `canonical_id` and `external`
survive, so an empty target produces no node. -/
def mkExternalNode (t : String) : Option PyNode :=
  if t = "" then none
  else some { ntype := "External", name := t, path := "",
              parent_canonical_id := "", canonical_id := t, gid := "" }

/-- The payload-construction part of `process_message` (lines building
`node_canonical_ids`, `missing_targets`, `external_nodes`,
`filtered_relationships` and the two stub lists). -/
def buildPayload (file_path : String) (nodes : List PyNode)
    (relationships : List PyRel) : AnalyzerResultPayload :=
  let node_canonical_ids := nodes.map (·.canonical_id)
  let missing_targets :=
    dedup ((relationships.filter
      (fun r => r.target_canonical_id ∉ node_canonical_ids)).map
        (·.target_canonical_id))
  let external_nodes := missing_targets.filterMap mkExternalNode
  let nodes' := if external_nodes = [] then nodes else nodes ++ external_nodes
  let ids' := if external_nodes = [] then node_canonical_ids
              else node_canonical_ids ++ missing_targets
  let filtered_relationships := relationships.filter
    (fun r => r.source_canonical_id ∈ ids' ∧ r.target_canonical_id ∈ ids')
  { file_path := file_path, language := "python",
    nodes_upserted := create_analysis_node_stubs nodes',
    relationships_upserted := create_analysis_relationship_stubs filtered_relationships }

/-- A job message from the analysis queue. -/
structure JobMessage where
  file_path : String
  event_type : String
  id : Option String
deriving Repr, DecidableEq

/-- The observable outcome of `process_message` on one job: whether the
message is acknowledged (`true` = `basic_ack`; `false` =
`basic_nack(requeue=True)`) and the `AnalyzerResultPayload` published to
the results queue, if any. -/
structure MessageOutcome where
  acked : Bool
  published : Option AnalyzerResultPayload
deriving Repr, DecidableEq

/-- Python's `str.endswith`, on character lists. -/
def endswith (s suffix : String) : Bool :=
  suffix.data.isSuffixOf s.data

/-- Embedding of the analyzer's `process_message` control flow.
`analysis` stands for the `(nodes, relationships)` value returned by
`analyze_python_file` for this file; when parsing fails that function's
exception handler returns `([], [])` (see `analyzeFailureResult`). -/
def process_message (msg : JobMessage)
    (analysis : List PyNode × List PyRel) : MessageOutcome :=
  if msg.id = none then ⟨true, none⟩
  else if ¬ endswith msg.file_path ".py" then ⟨true, none⟩
  else if msg.event_type = "DELETED" then ⟨true, none⟩
  else
    let (nodes, relationships) := analysis
    if nodes.isEmpty then ⟨true, none⟩
    else ⟨true, some (buildPayload msg.file_path nodes relationships)⟩

/-- The value `analyze_python_file` returns from its `except` branch when
reading or parsing the file raises (e.g. a syntax error): empty node and
relationship lists. -/
def analyzeFailureResult : List PyNode × List PyRel := ([], [])

end PythonAnalyzer

namespace IngestionWorker

/-- A node row of an `AnalyzerResult` payload as consumed by
`ingest_nodes` (gid, canonical_id, name, file_path, language, labels;
scalar properties beyond these play no role in the claims). -/
structure NodeRow where
  gid : String
  canonical_id : String
  name : String
  file_path : String
  language : String
  labels : List String
deriving Repr, DecidableEq

/-- A relationship row as consumed by `ingest_relationships`
(`source_gid`, `target_canonical_id`, `type`). -/
structure RelRow where
  source_gid : String
  target_canonical_id : String
  rtype : String
deriving Repr, DecidableEq

/-- A node stored in the graph: its property keys and its label set. -/
structure GNode where
  gid : String
  canonical_id : String
  name : String
  file_path : String
  language : String
  labels : List String
deriving Repr, DecidableEq

/-- A concrete typed edge between two stored nodes (Neo4j relationships
connect existing nodes, so both endpoints are recorded by `gid`). -/
structure GEdge where
  source_gid : String
  target_gid : String
  rtype : String
deriving Repr, DecidableEq

/-- A `PendingRelationship` record: the second batched insert of
`ingest_relationships` stores exactly `sourceGid`, `targetCanonicalId`
and `type` (the row's properties are not copied). -/
structure GPending where
  sourceGid : String
  targetCanonicalId : String
  ptype : String
deriving Repr, DecidableEq

/-- The graph-store state.  `PendingRelationship` placeholders are kept
apart from code nodes: they carry neither a `gid` nor a `canonical_id`
property, so no `MATCH` on those keys can ever see them. -/
structure GraphDB where
  nodes : List GNode
  edges : List GEdge
  pendings : List GPending
deriving Repr, DecidableEq

/-- The empty graph. -/
def emptyGraph : GraphDB := ⟨[], [], []⟩

/-- `MATCH (n {gid: g})` — the first stored node carrying that gid. -/
def findByGid (g : GraphDB) (gid : String) : Option GNode :=
  g.nodes.find? (fun n => n.gid = gid)

/-- `MATCH (n {canonical_id: c})` — the first stored node carrying that
canonical_id. -/
def findByCid (g : GraphDB) (cid : String) : Option GNode :=
  g.nodes.find? (fun n => n.canonical_id = cid)

/-- `MERGE (source)-[r:T]->(target)`: add the edge unless present. -/
def mergeEdge (g : GraphDB) (e : GEdge) : GraphDB :=
  if e ∈ g.edges then g else { g with edges := g.edges ++ [e] }

/-- Whether `MERGE (n:L1:...:Lk {gid: row.gid})` matches a stored node:
the node must carry every label of the pattern and the gid. -/
def nodeMatchesMerge (row : NodeRow) (n : GNode) : Bool :=
  n.gid = row.gid && row.labels.all (fun l => l ∈ n.labels)

/-- `ON MATCH SET n += row`: overwrite the property keys with the row's
values (labels are untouched by `SET`). -/
def updateNode (row : NodeRow) (n : GNode) : GNode :=
  { n with gid := row.gid, canonical_id := row.canonical_id,
           name := row.name, file_path := row.file_path,
           language := row.language }

/-- Replace the first merge-matching node, if any. -/
def updateFirstMatch (row : NodeRow) : List GNode → Option (List GNode)
  | [] => none
  | n :: rest =>
      if nodeMatchesMerge row n then some (updateNode row n :: rest)
      else (updateFirstMatch row rest).map (n :: ·)

/-- One row of the batched node `MERGE`: update on match, create (with
exactly the pattern's labels and the row's properties) otherwise. -/
def mergeNode (g : GraphDB) (row : NodeRow) : GraphDB :=
  match updateFirstMatch row g.nodes with
  | some nodes' => { g with nodes := nodes' }
  | none =>
      { g with nodes := g.nodes ++
          [⟨row.gid, row.canonical_id, row.name, row.file_path,
            row.language, row.labels⟩] }

/-- One pending-resolution row (the `MATCH source / MATCH target /
MATCH pr / MERGE edge / DELETE pr` pattern): when both endpoints match,
merge the edge and drop the pending record; otherwise the row matches
nothing and the pending record stays. -/
def resolveOnePending (g : GraphDB) (p : GPending) : GraphDB :=
  match findByGid g p.sourceGid, findByCid g p.targetCanonicalId with
  | some _, some t =>
      let g' := mergeEdge g ⟨p.sourceGid, t.gid, p.ptype⟩
      { g' with pendings := g'.pendings.erase p }
  | _, _ => g

/-- Embedding of `resolve_pending_relationships_for_node`: first every
pending whose `targetCanonicalId` equals the given canonical_id is
attempted, then every pending whose `sourceGid` is the gid of a stored
node carrying that canonical_id.  (The grouping by type in the source
only batches the same per-row pattern.) -/
def resolve_pending_relationships_for_node (g : GraphDB) (cid : String) : GraphDB :=
  let targetCase := (g.pendings.filter (fun p => p.targetCanonicalId = cid)).foldl
    resolveOnePending g
  (targetCase.pendings.filter (fun p =>
      targetCase.nodes.any (fun n => n.canonical_id = cid && n.gid = p.sourceGid))).foldl
    resolveOnePending targetCase

/-- One label-group batch of `ingest_nodes`: the batched `MERGE`, then
the immediate resolution attempt for every canonical_id of the batch. -/
def ingestNodeGroup (g : GraphDB) (group : List NodeRow) : GraphDB :=
  let merged := group.foldl mergeNode g
  (group.map (·.canonical_id)).foldl resolve_pending_relationships_for_node merged

/-- First-occurrence deduplication of label sets (dictionary key order). -/
def dedupLabels : List (List String) → List (List String)
  | [] => []
  | x :: xs => if x ∈ dedupLabels xs then dedupLabels xs else x :: dedupLabels xs

/-- Embedding of `Neo4jIngestionWorker.ingest_nodes`: rows are grouped by
their label set (insertion order, as a `defaultdict` preserves) and each
group is merged and then resolved. -/
def ingest_nodes (g : GraphDB) (rows : List NodeRow) : GraphDB :=
  (dedupLabels (rows.map (·.labels))).foldl
    (fun h ls => ingestNodeGroup h (rows.filter (fun r => r.labels = ls))) g

/-- Whether a relationship row's `MATCH source` / `MATCH target` pair
succeeds against the current node set. -/
def relRowMatches (g : GraphDB) (r : RelRow) : Bool :=
  (findByGid g r.source_gid).isSome && (findByCid g r.target_canonical_id).isSome

/-- The edge a matching relationship row merges: source matched by gid,
target matched by canonical_id. -/
def edgeOfRow (g : GraphDB) (r : RelRow) : GEdge :=
  ⟨r.source_gid, ((findByCid g r.target_canonical_id).map (·.gid)).getD "",
   r.rtype⟩

/-- One type-group batch of `ingest_relationships`: the batched `MERGE`
returns the `(source_gid, target_canonical_id)` pairs that matched
(`created_pairs`); every row of the group whose pair is not among them is
then inserted as a `PendingRelationship` with `CREATE` (note: `CREATE`,
not `MERGE` — duplicates are not prevented). -/
def ingestRelGroup (g : GraphDB) (rtype : String) (group : List RelRow) : GraphDB :=
  let matched := group.filter (relRowMatches g)
  let g1 := matched.foldl (fun h r => mergeEdge h (edgeOfRow g r)) g
  let created_pairs := matched.map (fun r => (r.source_gid, r.target_canonical_id))
  let pending_batch := group.filter
    (fun r => (r.source_gid, r.target_canonical_id) ∉ created_pairs)
  { g1 with pendings := g1.pendings ++
      pending_batch.map (fun r => ⟨r.source_gid, r.target_canonical_id, rtype⟩) }

/-- Embedding of `Neo4jIngestionWorker.ingest_relationships`: rows are
grouped by type (insertion order) and each group processed as one batch. -/
def ingest_relationships (g : GraphDB) (rows : List RelRow) : GraphDB :=
  (PythonAnalyzer.dedup (rows.map (·.rtype))).foldl
    (fun h t => ingestRelGroup h t (rows.filter (fun r => r.rtype = t))) g

/-- Embedding of `resolve_pending_relationships` (the periodic drain):
every pending record is attempted once against the current node set.
(The source fetches batches of `RELATIONSHIP_BATCH_SIZE`; resolving a
pending never adds nodes, so for fewer than a full batch of pendings the
loop performs exactly this single pass.) -/
def resolve_pending_relationships (g : GraphDB) : GraphDB :=
  g.pendings.foldl resolveOnePending g

end IngestionWorker

namespace IngestionWorker

/-- The cascade set of `delete_nodes` for one gid, as collected by its
Cypher: the matched node itself plus its DIRECT `CONTAINS|DEFINES`
children (`MATCH (n {gid}) OPTIONAL MATCH (n)-[:CONTAINS|DEFINES]->(child)`
— the traversal is one step, not transitive). -/
def cascadeSet (g : GraphDB) (gid : String) : List GNode :=
  match findByGid g gid with
  | none => []
  | some n =>
      n :: g.nodes.filter (fun c =>
        g.edges.any (fun e =>
          e.source_gid = n.gid && e.target_gid = c.gid &&
          (e.rtype = "CONTAINS" || e.rtype = "DEFINES")))

/-- Embedding of `Neo4jIngestionWorker.delete_nodes` for one gid: delete
every `PendingRelationship` whose `sourceGid` is the gid of a cascade
node or whose `targetCanonicalId` is the canonical_id of a cascade node,
then detach-delete the cascade nodes (removing their incident edges). -/
def deleteOneGid (g : GraphDB) (gid : String) : GraphDB :=
  match findByGid g gid with
  | none => g
  | some _ =>
      let cascade := cascadeSet g gid
      let gids := cascade.map (·.gid)
      let cids := cascade.map (·.canonical_id)
      { nodes := g.nodes.filter (fun n => n.gid ∉ gids),
        edges := g.edges.filter (fun e =>
          e.source_gid ∉ gids ∧ e.target_gid ∉ gids),
        pendings := g.pendings.filter (fun p =>
          ¬ (p.sourceGid ∈ gids ∨ p.targetCanonicalId ∈ cids)) }

/-- Embedding of `Neo4jIngestionWorker.delete_nodes`. -/
def delete_nodes (g : GraphDB) (node_gids : List String) : GraphDB :=
  node_gids.foldl deleteOneGid g

/-- A relationship-deletion spec (`source_gid`, `target_canonical_id`,
optional `type`). -/
structure RelDeleteSpec where
  source_gid : String
  target_canonical_id : String
  rtype : Option String
deriving Repr, DecidableEq

/-- Embedding of `Neo4jIngestionWorker.delete_relationships` for one
spec: delete matching concrete edges (target matched by canonical_id)
and matching pending records. -/
def deleteOneRel (g : GraphDB) (s : RelDeleteSpec) : GraphDB :=
  { g with
    edges := g.edges.filter (fun e =>
      ¬ (e.source_gid = s.source_gid ∧
         (g.nodes.any (fun t =>
            t.gid = e.target_gid && t.canonical_id = s.target_canonical_id)) = true ∧
         (s.rtype = none ∨ s.rtype = some e.rtype))),
    pendings := g.pendings.filter (fun p =>
      ¬ (p.sourceGid = s.source_gid ∧
         p.targetCanonicalId = s.target_canonical_id ∧
         (s.rtype = none ∨ s.rtype = some p.ptype))) }

/-- Embedding of `Neo4jIngestionWorker.delete_relationships`. -/
def delete_relationships (g : GraphDB) (specs : List RelDeleteSpec) : GraphDB :=
  specs.foldl deleteOneRel g

/-- An `AnalyzerResult` payload as the worker's `process_message` reads
it from the results queue. -/
structure ResultPayload where
  nodes_upserted : List NodeRow := []
  relationships_upserted : List RelRow := []
  nodes_deleted : List String := []
  relationships_deleted : List RelDeleteSpec := []
deriving Repr, DecidableEq

/-- Embedding of the worker's `process_message` happy path: upsert nodes,
upsert relationships, delete nodes, delete relationships (each step
guarded on a non-empty list, as in the source), then one
pending-resolution pass. -/
def process_message (g : GraphDB) (payload : ResultPayload) : GraphDB :=
  let g1 := if payload.nodes_upserted.isEmpty then g
            else ingest_nodes g payload.nodes_upserted
  let g2 := if payload.relationships_upserted.isEmpty then g1
            else ingest_relationships g1 payload.relationships_upserted
  let g3 := if payload.nodes_deleted.isEmpty then g2
            else delete_nodes g2 payload.nodes_deleted
  let g4 := if payload.relationships_deleted.isEmpty then g3
            else delete_relationships g3 payload.relationships_deleted
  resolve_pending_relationships g4

/-- Number of stored nodes. -/
def nodeCount (g : GraphDB) : Nat := g.nodes.length

/-- Number of concrete relationships. -/
def edgeCount (g : GraphDB) : Nat := g.edges.length

/-- Number of `PendingRelationship` records. -/
def pendingCount (g : GraphDB) : Nat := g.pendings.length

/-- Number of stored nodes whose `file_path` equals the given path. -/
def nodesWithFilePath (g : GraphDB) (fp : String) : Nat :=
  (g.nodes.filter (fun n => n.file_path = fp)).length

end IngestionWorker

namespace Resolution

/-- Python regex `\w` (ASCII): letters, digits, underscore. -/
def isWordChar (c : Char) : Bool :=
  (('a' ≤ c && c ≤ 'z') || ('A' ≤ c && c ≤ 'Z') ||
   ('0' ≤ c && c ≤ '9') || c = '_')

/-- Python regex `\s` (ASCII): space, tab, newline, return, vtab, formfeed. -/
def isSpaceChar (c : Char) : Bool :=
  c = ' ' || c = '\t' || c = '\n' || c = '\x0d' || c = '\x0b' || c = '\x0c'

/-- Case-insensitive literal match: strip the (lower-case) keyword off the
front of the text, if it is there. -/
def stripKeyword : List Char → List Char → Option (List Char)
  | [], l => some l
  | _ :: _, [] => none
  | k :: ks, c :: cs => if c.toLower = k then stripKeyword ks cs else none

/-- Try an ordered alternation of (lower-case) keywords at this position.
The keyword sets used below have pairwise distinct first letters (or are
otherwise tried in the pattern's order), matching the regex engine. -/
def matchAnyKw : List (List Char) → List Char → Option (List Char)
  | [], _ => none
  | k :: ks, l =>
      match stripKeyword k l with
      | some r => some r
      | none => matchAnyKw ks l

/-- One attempt of ``(?:FROM|JOIN|UPDATE|INTO)\s+`?(\w+)`?`` at the
current position (the leading `\b` is checked by the caller).  Returns
the captured name, the rest of the text after the match, and whether the
last consumed character is a word character (for the next boundary). -/
def matchTableAt (l : List Char) : Option (String × List Char × Bool) :=
  match matchAnyKw [['f','r','o','m'], ['j','o','i','n'],
                    ['u','p','d','a','t','e'], ['i','n','t','o']] l with
  | none => none
  | some r1 =>
      if (r1.takeWhile isSpaceChar).isEmpty then none
      else
        let r2 := r1.dropWhile isSpaceChar
        let r2' := match r2 with | '`' :: t => t | _ => r2
        let name := r2'.takeWhile isWordChar
        if name.isEmpty then none
        else
          let r3 := r2'.dropWhile isWordChar
          match r3 with
          | '`' :: t => some (String.mk name, t, false)
          | _ => some (String.mk name, r3, true)

/-- The scan of ``re.findall(r'\b(?:FROM|JOIN|UPDATE|INTO)\s+`?(\w+)`?',
query, re.IGNORECASE)``: left-to-right, non-overlapping; on a match the
scan resumes after it.  `prevW` tracks whether the previous character is
a word character (the `\b` before the keyword holds exactly when it is
not).  The fuel starts above the text length and each step consumes at
least one character, so it never runs out. -/
def tableScanAux : Nat → Bool → List Char → List String
  | 0, _, _ => []
  | _ + 1, _, [] => []
  | fuel + 1, prevW, c :: cs =>
      match if prevW then none else matchTableAt (c :: cs) with
      | some (name, rest, lw) => name :: tableScanAux fuel lw rest
      | none => tableScanAux fuel (isWordChar c) cs

/-- One attempt of the first alternative
``\b(?:SELECT|WHERE|SET|ON)\s+(?:`?(\w+)`?|\*)`` (the `\b` is checked by
the caller).  `none` as the captured name models the `\*` branch, which
consumes but captures nothing. -/
def matchColKwAt (l : List Char) : Option (Option String × List Char × Bool) :=
  match matchAnyKw [['s','e','l','e','c','t'], ['w','h','e','r','e'],
                    ['s','e','t'], ['o','n']] l with
  | none => none
  | some r1 =>
      if (r1.takeWhile isSpaceChar).isEmpty then none
      else
        let r2 := r1.dropWhile isSpaceChar
        let r2' := match r2 with | '`' :: t => t | _ => r2
        let name := r2'.takeWhile isWordChar
        if name.isEmpty then
          match r2 with
          | '*' :: t => some (none, t, false)
          | _ => none
        else
          let r3 := r2'.dropWhile isWordChar
          match r3 with
          | '`' :: t => some (some (String.mk name), t, false)
          | _ => some (some (String.mk name), r3, true)

/-- One attempt of the second alternative ``(?:`?(\w+)`?\s*=\s*)`` (no
boundary; a shorter `\w+` run can never rescue a failed match, so the
maximal run is the only candidate). -/
def matchColEqAt (l : List Char) : Option (String × List Char) :=
  let l' := match l with | '`' :: t => t | _ => l
  let name := l'.takeWhile isWordChar
  if name.isEmpty then none
  else
    let r := l'.dropWhile isWordChar
    let r' := match r with | '`' :: t => t | _ => r
    match r'.dropWhile isSpaceChar with
    | '=' :: t => some (String.mk name, t.dropWhile isSpaceChar)
    | _ => none

/-- The scan of the column pattern
``\b(?:SELECT|WHERE|SET|ON)\s+(?:`?(\w+)`?|\*)|(?:`?(\w+)`?\s*=\s*)``:
at each position the keyword alternative is tried first (subject to its
`\b`), then the assignment alternative; empty captures (the `\*` branch)
contribute nothing, as the source's flattening drops falsy groups. -/
def colScanAux : Nat → Bool → List Char → List String
  | 0, _, _ => []
  | _ + 1, _, [] => []
  | fuel + 1, prevW, c :: cs =>
      match if prevW then none else matchColKwAt (c :: cs) with
      | some (some name, rest, lw) => name :: colScanAux fuel lw rest
      | some (none, rest, lw) => colScanAux fuel lw rest
      | none =>
          match matchColEqAt (c :: cs) with
          | some (name, rest) => name :: colScanAux fuel false rest
          | none => colScanAux fuel (isWordChar c) cs

/-- The result of `parse_sql_query`: the extracted table and column name
sets, as first-occurrence-deduplicated lists (the source returns Python
sets; only membership is used downstream). -/
structure SqlParseResult where
  tables : List String
  columns : List String
deriving Repr, DecidableEq

/-- Embedding of `helpers.parse_sql_query`. -/
def parse_sql_query (query : String) : SqlParseResult :=
  { tables := PythonAnalyzer.dedup
      (tableScanAux (query.data.length + 1) false query.data),
    columns := PythonAnalyzer.dedup
      (colScanAux (query.data.length + 1) false query.data) }

/-- `re.search(r'\bKW\b', query, re.IGNORECASE)` for a word `kw` (given
lower-case): some position has a boundary before, the keyword, and a
boundary after. -/
def searchWordAux (kw : List Char) : Bool → List Char → Bool
  | _, [] => false
  | prevW, c :: cs =>
      (¬ prevW &&
        (match stripKeyword kw (c :: cs) with
         | some [] => true
         | some (d :: _) => ¬ isWordChar d
         | none => false)) ||
      searchWordAux kw (isWordChar c) cs

/-- Whether the query contains the given keyword as a whole word,
case-insensitively. -/
def containsWord (query : String) (kw : List Char) : Bool :=
  searchWordAux kw false query.data

/-- The `neo4j_ingestion_pb2.GraphNode` fields the resolver reads. -/
structure GraphNode where
  global_id : String
  node_type : String
  properties : List (String × String)
deriving Repr, DecidableEq

/-- `node.properties.get(key, "")`. -/
def getProp (n : GraphNode) (key : String) : String :=
  ((n.properties.find? (fun kv => kv.1 = key)).map (·.2)).getD ""

/-- The `neo4j_ingestion_pb2.GraphRelationship` fields the resolver
writes. -/
structure GraphRelationship where
  source_node_global_id : String
  target_node_global_id : String
  relationship_type : String
  properties : List (String × String)
deriving Repr, DecidableEq

/-- A Python dict built by successive `d[k] = v` assignments over the
given entries (later entries overwrite earlier ones). -/
def buildDict (entries : List (String × String)) : String → Option String :=
  entries.foldl (fun m kv => fun k => if k = kv.1 then some kv.2 else m k)
    (fun _ => none)

/-- Python `str.strip("/")`: remove leading and trailing slashes. -/
def stripSlashes (s : String) : String :=
  String.mk (((s.data.dropWhile (· = '/')).reverse.dropWhile (· = '/')).reverse)

/-- The `api_endpoints` dict: normalized nonempty `path` property of each
`ApiEndpoint` node, mapped to its gid (duplicates overwrite, with a
warning in the source). -/
def api_endpoints (nodes : List GraphNode) : String → Option String :=
  buildDict ((nodes.filter (fun n => n.node_type = "ApiEndpoint")).filterMap
    (fun n =>
      let path := stripSlashes (getProp n "path")
      if path = "" then none else some (path, n.global_id)))

/-- The `db_tables` dict: nonempty `name` property of each `Table` node,
mapped to its gid. -/
def db_tables (nodes : List GraphNode) : String → Option String :=
  buildDict ((nodes.filter (fun n => n.node_type = "Table")).filterMap
    (fun n =>
      let name := getProp n "name"
      if name = "" then none else some (name, n.global_id)))

/-- The `db_columns` dict: nonempty `name` property of each `Column`
node, mapped to its gid. -/
def db_columns (nodes : List GraphNode) : String → Option String :=
  buildDict ((nodes.filter (fun n => n.node_type = "Column")).filterMap
    (fun n =>
      let name := getProp n "name"
      if name = "" then none else some (name, n.global_id)))

/-- `caller.properties.get("url", "") or caller.properties.get("path", "")`. -/
def effectiveUrl (c : GraphNode) : String :=
  if getProp c "url" = "" then getProp c "path" else getProp c "url"

/-- The caller-side normalization `url.split("?")[0].strip("/")`: drop
everything from the first question mark, then leading/trailing slashes.
Scheme and host are NOT stripped. -/
def normalizeCallUrl (u : String) : String :=
  stripSlashes (String.mk (u.data.takeWhile (fun c => c ≠ '?')))

/-- The `CALLS_API` edges one `ApiCall` node contributes: none when its
URL is empty or its normalized path misses the endpoint map. -/
def apiEdgesFor (nodes : List GraphNode) (caller : GraphNode) :
    List GraphRelationship :=
  if effectiveUrl caller = "" then []
  else
    match api_endpoints nodes (normalizeCallUrl (effectiveUrl caller)) with
    | some target_gid =>
        [⟨caller.global_id, target_gid, "CALLS_API",
          [("heuristic_match", "url_path")]⟩]
    | none => []

/-- The API-call matching pass of `resolve_cross_language_heuristics`. -/
def apiMatchEdges (nodes : List GraphNode) : List GraphRelationship :=
  (nodes.filter (fun n => n.node_type = "ApiCall")).flatMap (apiEdgesFor nodes)

/-- The relationship type chosen for a table match: `MODIFIES_TABLE`
when the query contains `UPDATE`, `INSERT` or `DELETE` as a word,
else `READS_TABLE` when it contains `SELECT`, else the default
`QUERIES_TABLE`. -/
def sqlRelType (query : String) : String :=
  if containsWord query ['u','p','d','a','t','e'] ||
     containsWord query ['i','n','s','e','r','t'] ||
     containsWord query ['d','e','l','e','t','e'] then "MODIFIES_TABLE"
  else if containsWord query ['s','e','l','e','c','t'] then "READS_TABLE"
  else "QUERIES_TABLE"

/-- The edge an extracted table name contributes for one query node:
one `sqlRelType`-typed edge when the name is in the table map. -/
def tableEdge (nodes : List GraphNode) (qn : GraphNode) (query t : String) :
    List GraphRelationship :=
  match db_tables nodes t with
  | some tg =>
      [⟨qn.global_id, tg, sqlRelType query,
        [("heuristic_match", "table_name_in_query")]⟩]
  | none => []

/-- The edge an extracted column name contributes for one query node:
one `USES_COLUMN` edge when the name is in the column map. -/
def columnEdge (nodes : List GraphNode) (qn : GraphNode) (cn : String) :
    List GraphRelationship :=
  match db_columns nodes cn with
  | some cg =>
      [⟨qn.global_id, cg, "USES_COLUMN",
        [("heuristic_match", "column_name_in_query")]⟩]
  | none => []

/-- The edges one `DatabaseQuery` node contributes: table matches then
column matches of its parsed query string (none when it is empty). -/
def dbEdgesFor (nodes : List GraphNode) (qn : GraphNode) :
    List GraphRelationship :=
  if getProp qn "query" = "" then []
  else
    ((parse_sql_query (getProp qn "query")).tables.flatMap
      (tableEdge nodes qn (getProp qn "query")))
    ++ ((parse_sql_query (getProp qn "query")).columns.flatMap
      (columnEdge nodes qn))

/-- The database-query matching pass of
`resolve_cross_language_heuristics`. -/
def dbMatchEdges (nodes : List GraphNode) : List GraphRelationship :=
  (nodes.filter (fun n => n.node_type = "DatabaseQuery")).flatMap
    (dbEdgesFor nodes)

/-- Embedding of `resolve_cross_language_heuristics`: the API matching
edges followed by the database matching edges. -/
def resolve_cross_language_heuristics (nodes : List GraphNode) :
    List GraphRelationship :=
  apiMatchEdges nodes ++ dbMatchEdges nodes

end Resolution

section Theorems

open IdGenerator

/-- Every nibble maps into the lower-case hex alphabet. -/
theorem hexChar_mem_alphabet (n : Nat) : hexChar n ∈ hexAlphabet := by
  have h : n % 16 < hexAlphabet.length := by
    rw [show hexAlphabet.length = 16 from rfl]
    exact Nat.mod_lt _ (by decide)
  rw [hexChar, List.getD_eq_getElem _ _ h]
  exact List.getElem_mem h

/-- Every character of a hex digest is a lower-case hex digit. -/
theorem hexDigest_chars (bs : List Nat) :
    ∀ c ∈ (hexDigest bs).data, c ∈ hexAlphabet := by
  intro c hc
  simp only [hexDigest] at hc
  rcases List.mem_flatMap.mp hc with ⟨b, _, hb⟩
  simp only [byteToHex, List.mem_cons, List.mem_singleton] at hb
  rcases hb with h | h | h
  · exact h ▸ hexChar_mem_alphabet _
  · exact h ▸ hexChar_mem_alphabet _
  · exact absurd h (List.not_mem_nil c)

/-- A hex digest has two characters per byte. -/
theorem hexDigest_length (bs : List Nat) :
    (hexDigest bs).length = 2 * bs.length := by
  induction bs with
  | nil => rfl
  | cons b rest ih =>
      simp only [hexDigest, String.length, List.flatMap_cons, byteToHex] at *
      simp only [List.length_append, List.length_cons, List.length_nil] at *
      omega

/-- A SHA-256 digest is 32 bytes. -/
theorem sha256_length (msg : List Nat) : (sha256 msg).length = 32 := by
  simp [sha256, stateToBytes, wordToBytes]

end Theorems

section ClaimC7

open IdGenerator

/-- Claim C7: identifier generation is deterministic and the gid has the
fixed content-addressed format.  `generate_global_id` is a pure function
(equal inputs give the identical result — indeed the result does not
even depend on the `relative_path` argument), and the returned gid is the
language tag, followed by a colon, followed by the SHA-256 digest of the
canonical identifier rendered as 64 lower-case hexadecimal characters. -/
theorem c7_generate_global_id_deterministic_content_addressed
    (language relative_path relative_path' canonical_id : String) :
    generate_global_id language relative_path canonical_id
      = generate_global_id language relative_path' canonical_id
    ∧ generate_global_id language relative_path canonical_id
      = language ++ ":" ++ hexDigest (sha256 (utf8Encode canonical_id))
    ∧ (hexDigest (sha256 (utf8Encode canonical_id))).length = 64
    ∧ ∀ c ∈ (hexDigest (sha256 (utf8Encode canonical_id))).data,
        c ∈ hexAlphabet := by
  refine ⟨rfl, rfl, ?_, hexDigest_chars _⟩
  rw [hexDigest_length, sha256_length]

end ClaimC7

section ClaimC4

open FileWatcher

/-- Looking a path up right after setting it yields the set time. -/
theorem lookupTs_setTs (l : List (String × Int)) (p : String) (t : Int) :
    lookupTs (setTs l p t) p = some t := by
  induction l with
  | nil => simp [setTs, lookupTs]
  | cons kv rest ih =>
      by_cases h : kv.1 = p
      · simp [setTs, lookupTs, h]
      · simp [setTs, lookupTs, h, ih]

/-- Gap condition relative to the previously recorded timestamp. -/
def AllGapsShort : Int → List Int → Prop
  | _, [] => True
  | prev, t :: ts => t - prev < DEBOUNCE_MS ∧ AllGapsShort t ts

/-- A short-gap chain gives the relative gap condition from its head. -/
theorem gapsBelow_to_allGaps :
    ∀ (t0 : Int) (rest : List Int),
      GapsBelowDebounce (t0 :: rest) → AllGapsShort t0 rest
  | _, [], _ => trivial
  | t0, t1 :: r, h => ⟨h.1, gapsBelow_to_allGaps t1 r h.2⟩

/-- Once the path is in the table, a run of `MODIFIED` events whose gaps
(starting from the recorded time) stay below the window emits nothing. -/
theorem countModified_zero_of_tracked (ts : List Int) :
    ∀ (st : WatchState) (path : String) (prev : Int),
    lookupTs st.file_timestamps path = some prev →
    AllGapsShort prev ts →
    countModifiedEmitted st path ts = 0 := by
  induction ts with
  | nil => intro st path prev _ _; rfl
  | cons t rest ih =>
      intro st path prev hlook hgaps
      have hne : ("MODIFIED" : String) ≠ "DELETED" := by decide
      rcases hgaps with ⟨hlt, hrest⟩
      have hbool : decide (t - prev ≥ DEBOUNCE_MS) = false := by
        simp only [decide_eq_false_iff_not]
        omega
      simp only [countModifiedEmitted, should_process_now, if_neg hne, hlook,
        hbool, Bool.false_eq_true, if_false, Nat.zero_add]
      exact ih ⟨setTs st.file_timestamps path t⟩ path t (lookupTs_setTs _ _ _) hrest

/-- Claim C4 counterexample: with the default 500 ms window and an empty
debounce table, five `MODIFIED` events on the same path at 0, 100, 200,
300 and 400 ms (each consecutive pair less than 500 ms apart) emit ZERO
jobs — not exactly one as the claim states: the handler records the
first event without emitting it and debounces every follower. -/
theorem c4_counterexample_burst_emits_zero_not_one :
    countModifiedEmitted ⟨[]⟩ "src/app.py" [0, 100, 200, 300, 400] = 0 ∧
    countModifiedEmitted ⟨[]⟩ "src/app.py" [0, 100, 200, 300, 400] ≠ 1 := by
  refine ⟨rfl, ?_⟩
  intro h
  rw [show countModifiedEmitted ⟨[]⟩ "src/app.py" [0, 100, 200, 300, 400] = 0
    from rfl] at h
  exact Nat.zero_ne_one h

/-- Claim C4 (amended): a `MODIFIED` event is emitted if and only if the
path already has a recorded timestamp at least `DEBOUNCE_MS` older than
the event (so the first event for a path is never emitted — it only
starts the clock); consequently a sequence of `MODIFIED` events on a
path not yet in the table, with every consecutive gap below
`DEBOUNCE_MS`, emits zero jobs rather than exactly one. -/
theorem c4_amended_debounce_emits_zero_for_burst
    (st : WatchState) (path : String) (t : Int) (ts : List Int)
    (hnew : lookupTs st.file_timestamps path = none)
    (hgaps : GapsBelowDebounce ts) :
    ((should_process_now st path "MODIFIED" t).1 = true ↔
      ∃ last, lookupTs st.file_timestamps path = some last ∧
        t - last ≥ DEBOUNCE_MS) ∧
    countModifiedEmitted st path ts = 0 := by
  have hne : ("MODIFIED" : String) ≠ "DELETED" := by decide
  constructor
  · simp only [should_process_now, if_neg hne, hnew]
    constructor
    · intro h; exact absurd h (by simp)
    · rintro ⟨last, hlast, _⟩; exact absurd hlast (by simp)
  · cases ts with
    | nil => rfl
    | cons t0 rest =>
        simp only [countModifiedEmitted, should_process_now, if_neg hne, hnew,
          Bool.false_eq_true, if_false, Nat.zero_add]
        exact countModified_zero_of_tracked rest
          ⟨setTs st.file_timestamps path t0⟩ path t0 (lookupTs_setTs _ _ _)
          (gapsBelow_to_allGaps t0 rest hgaps)

/-- Claim C4 amended-claim witness: concrete instantiation — empty table,
events at 0, 200 and 350 ms — discharging both hypotheses. -/
theorem c4_amended_witness :
    lookupTs (⟨[]⟩ : WatchState).file_timestamps "src/app.py" = none ∧
    GapsBelowDebounce [0, 200, 350] ∧
    countModifiedEmitted ⟨[]⟩ "src/app.py" [0, 200, 350] = 0 :=
  ⟨rfl, by constructor <;> simp [GapsBelowDebounce, DEBOUNCE_MS],
    (c4_amended_debounce_emits_zero_for_burst ⟨[]⟩ "src/app.py" 0 [0, 200, 350]
      rfl (by constructor <;> simp [GapsBelowDebounce, DEBOUNCE_MS])).2⟩

end ClaimC4

section ClaimC5

open PythonAnalyzer

/-- Claim C5 counterexample: a `MODIFIED` job for a Python file whose
parse fails (`analyze_python_file` returns empty lists from its
exception handler) is acknowledged but NO `AnalyzerResult` is published
— contradicting the claim that a `status = ERROR` result with a
descriptive message is published. -/
theorem c5_counterexample_parse_failure_publishes_nothing :
    PythonAnalyzer.process_message ⟨"src/bad.py", "MODIFIED", some "job-1"⟩
      analyzeFailureResult = ⟨true, none⟩ := rfl

/-- Claim C5 (amended): for every `CREATED`/`MODIFIED` analysis job on a
`.py` file whose parse fails, `analyze_python_file` swallows the error
and returns empty lists, and `process_message` then acknowledges the job
and returns without publishing any `AnalyzerResult` at all (the `error`
field of the payload model is never populated). -/
theorem c5_amended_parse_failure_acks_without_publishing
    (msg : JobMessage)
    (h1 : msg.id ≠ none)
    (h2 : PythonAnalyzer.endswith msg.file_path ".py" = true)
    (h3 : msg.event_type ≠ "DELETED") :
    process_message msg analyzeFailureResult = ⟨true, none⟩ := by
  simp [process_message, analyzeFailureResult, h1, h2, h3]

/-- Claim C5 amended-claim witness at a concrete job. -/
theorem c5_amended_witness :
    (some "job-2" ≠ (none : Option String)) ∧
    (PythonAnalyzer.endswith "src/broken.py" ".py" = true) ∧
    process_message ⟨"src/broken.py", "CREATED", some "job-2"⟩
      analyzeFailureResult = ⟨true, none⟩ :=
  ⟨by simp, by decide,
    c5_amended_parse_failure_acks_without_publishing
      ⟨"src/broken.py", "CREATED", some "job-2"⟩ (by simp) (by decide)
      (by decide)⟩

end ClaimC5

section ClaimC6

open PythonAnalyzer

/-- Claim C6 counterexample: a `DELETED` job is acknowledged with NO
published `AnalyzerResult` at all — contradicting the claim that a
payload with the file's canonical_id in `nodes_deleted` is published
(the source comments "In a real implementation, we would create a
deletion payload" and returns after the ack). -/
theorem c6_counterexample_deleted_publishes_nothing :
    (PythonAnalyzer.process_message ⟨"src/gone.py", "DELETED", some "job-3"⟩
      ([], [])).published = none := rfl

/-- Claim C6 (amended): for every analysis job with
`event_type = DELETED` (well-formed id, `.py` path), the Python analyzer
acknowledges the job and publishes nothing — in particular no
`nodes_deleted` list ever reaches the ingestion worker, whatever the
analysis of the file would have been. -/
theorem c6_amended_deleted_acks_without_publishing
    (msg : JobMessage) (analysis : List PyNode × List PyRel)
    (h1 : msg.id ≠ none)
    (h2 : PythonAnalyzer.endswith msg.file_path ".py" = true)
    (h3 : msg.event_type = "DELETED") :
    process_message msg analysis = ⟨true, none⟩ := by
  simp [process_message, h1, h2, h3]

/-- Claim C6 amended-claim witness at a concrete job, with a non-trivial
analysis value to show it is ignored. -/
theorem c6_amended_witness :
    (some "job-4" ≠ (none : Option String)) ∧
    (PythonAnalyzer.endswith "src/dead.py" ".py" = true) ∧
    process_message ⟨"src/dead.py", "DELETED", some "job-4"⟩
      ([⟨"File", "dead.py", "src/dead.py", "", "c1", "g1"⟩], []) =
      ⟨true, none⟩ :=
  ⟨by simp, by decide,
    c6_amended_deleted_acks_without_publishing
      ⟨"src/dead.py", "DELETED", some "job-4"⟩ _ (by simp) (by decide) rfl⟩

end ClaimC6

section ClaimC10

open PythonAnalyzer

/-- Set-deduplication preserves membership. -/
theorem mem_dedup {x : String} {l : List String} :
    x ∈ PythonAnalyzer.dedup l ↔ x ∈ l := by
  induction l with
  | nil => simp [PythonAnalyzer.dedup]
  | cons a rest ih =>
      by_cases h : a ∈ PythonAnalyzer.dedup rest
      · simp only [PythonAnalyzer.dedup, if_pos h, List.mem_cons, ih]
        constructor
        · exact Or.inr
        · rintro (rfl | hx)
          · exact ih.mp h
          · exact hx
      · simp [PythonAnalyzer.dedup, if_neg h, ih]

/-- When no missing target is empty, every synthesized external node
carries exactly its target as canonical_id. -/
theorem externals_canonical_ids (missing : List String)
    (h : ∀ t ∈ missing, t ≠ "") :
    (missing.filterMap mkExternalNode).map (·.canonical_id) = missing := by
  induction missing with
  | nil => rfl
  | cons t rest ih =>
      have ht : t ≠ "" := h t (List.mem_cons_self t rest)
      simp only [List.filterMap_cons, mkExternalNode, if_neg ht, List.map_cons]
      exact congrArg (t :: ·) (ih fun u hu => h u (List.mem_cons_of_mem t hu))

/-- The canonical_ids of the published node stubs are exactly the
canonical_ids of the underlying node dictionaries. -/
theorem node_stub_canonical_ids (nodes : List PyNode) :
    (create_analysis_node_stubs nodes).map (·.canonical_id) =
      nodes.map (·.canonical_id) := by
  simp [create_analysis_node_stubs, List.map_map]

/-- Core invariant of `buildPayload`: when no relationship target is the
empty string (as holds for every target format the AST visitor emits),
both endpoints of every published relationship stub appear among the
canonical_ids of the published node stubs. -/
theorem buildPayload_self_contained (fp : String) (nodes : List PyNode)
    (rels : List PyRel) (htgt : ∀ r ∈ rels, r.target_canonical_id ≠ "") :
    ∀ rs ∈ (buildPayload fp nodes rels).relationships_upserted,
      rs.source_gid ∈
        ((buildPayload fp nodes rels).nodes_upserted.map (·.canonical_id)) ∧
      rs.target_canonical_id ∈
        ((buildPayload fp nodes rels).nodes_upserted.map (·.canonical_id)) := by
  intro rs hrs
  simp only [buildPayload] at hrs ⊢
  set ids := nodes.map (·.canonical_id) with hids
  set missing := PythonAnalyzer.dedup
    ((rels.filter (fun r => r.target_canonical_id ∉ ids)).map
      (·.target_canonical_id)) with hmissing
  have hmiss_ne : ∀ t ∈ missing, t ≠ "" := by
    intro t ht
    have : t ∈ (rels.filter
        (fun r => r.target_canonical_id ∉ ids)).map (·.target_canonical_id) :=
      mem_dedup.mp ht
    rcases List.mem_map.mp this with ⟨r, hr, rfl⟩
    exact htgt r (List.mem_filter.mp hr).1
  set ext := missing.filterMap mkExternalNode with hext
  have hextids : ext.map (·.canonical_id) = missing :=
    externals_canonical_ids missing hmiss_ne
  have hrs' : ∃ r, (r ∈ rels ∧
      (r.source_canonical_id ∈ if ext = [] then ids else ids ++ missing) ∧
      (r.target_canonical_id ∈ if ext = [] then ids else ids ++ missing)) ∧
      ({ source_gid := r.source_canonical_id,
         target_canonical_id := r.target_canonical_id,
         rtype := r.rtype } : AnalysisRelationshipStub) = rs := by
    simpa [create_analysis_relationship_stubs] using hrs
  rcases hrs' with ⟨r, ⟨_, hsrc, htg⟩, rfl⟩
  have hfinal :
      ((if ext = [] then nodes else nodes ++ ext).map (·.canonical_id)) =
      (if ext = [] then ids else ids ++ missing) := by
    by_cases he : ext = []
    · rw [if_pos he, if_pos he, hids]
    · rw [if_neg he, if_neg he, List.map_append, hextids, hids]
  refine ⟨?_, ?_⟩
  · rw [node_stub_canonical_ids, hfinal]
    exact hsrc
  · rw [node_stub_canonical_ids, hfinal]
    exact htg

/-- Claim C10: every `AnalyzerResult` payload the Python analyzer
publishes is self-contained — given that no relationship target is the
empty string (every target the visitor emits is a non-empty formatted
identifier), each published relationship stub's source identifier and
target canonical_id both appear among the canonical_ids of the payload's
`nodes_upserted`: missing targets receive synthetic External nodes, and
any relationship with an endpoint still absent is filtered out before
publishing. -/
theorem c10_published_payload_self_contained
    (msg : JobMessage) (nodes : List PyNode) (rels : List PyRel)
    (payload : AnalyzerResultPayload)
    (htgt : ∀ r ∈ rels, r.target_canonical_id ≠ "")
    (hpub : (process_message msg (nodes, rels)).published = some payload) :
    ∀ rs ∈ payload.relationships_upserted,
      rs.source_gid ∈ (payload.nodes_upserted.map (·.canonical_id)) ∧
      rs.target_canonical_id ∈ (payload.nodes_upserted.map (·.canonical_id)) := by
  have hpay : payload = buildPayload msg.file_path nodes rels := by
    by_cases h1 : msg.id = none
    · simp [process_message, h1] at hpub
    · by_cases h2 : endswith msg.file_path ".py"
      · by_cases h3 : msg.event_type = "DELETED"
        · simp [process_message, h1, h2, h3] at hpub
        · by_cases h4 : nodes.isEmpty
          · simp [process_message, h1, h2, h3, h4] at hpub
          · simp [process_message, h1, h2, h3, h4] at hpub
            exact hpub.symm
      · simp [process_message, h1, h2] at hpub
  rw [hpay]
  exact buildPayload_self_contained msg.file_path nodes rels htgt

end ClaimC10

section ClaimC10Witness

open PythonAnalyzer

/-- Concrete nodes for the C10 witness: one file node. -/
def c10exNodes : List PyNode := [⟨"File", "mod.py", "pkg/mod.py", "", "c1", "g1"⟩]

/-- Concrete relationships for the C10 witness: one in-file target and
one target missing from the file's nodes. -/
def c10exRels : List PyRel :=
  [⟨"c1", "c1", "CONTAINS"⟩, ⟨"c1", "python::Function::ext_fn", ":CALLS"⟩]

/-- Concrete job message for the C10 witness. -/
def c10exMsg : JobMessage := ⟨"pkg/mod.py", "MODIFIED", some "j9"⟩

/-- The payload the analyzer publishes for the C10 witness job. -/
def c10exPayload : AnalyzerResultPayload := buildPayload "pkg/mod.py" c10exNodes c10exRels

/-- Claim C10 witness: the theorem applied to a concrete job whose
relationship list has a missing target, with both hypotheses discharged
on the concrete data. -/
theorem c10_witness :
    (∀ r ∈ c10exRels, r.target_canonical_id ≠ "") ∧
    ∀ rs ∈ c10exPayload.relationships_upserted,
      rs.source_gid ∈ (c10exPayload.nodes_upserted.map (·.canonical_id)) ∧
      rs.target_canonical_id ∈
        (c10exPayload.nodes_upserted.map (·.canonical_id)) :=
  ⟨by decide, c10_published_payload_self_contained c10exMsg c10exNodes
    c10exRels c10exPayload (by decide) rfl⟩

end ClaimC10Witness

section ClaimC3

open IngestionWorker

/-- `MERGE` of an edge does not touch nodes. -/
theorem mergeEdge_nodes (h : GraphDB) (e : GEdge) :
    (mergeEdge h e).nodes = h.nodes := by
  unfold mergeEdge
  split <;> rfl

/-- `MERGE` of an edge does not touch pendings. -/
theorem mergeEdge_pendings (h : GraphDB) (e : GEdge) :
    (mergeEdge h e).pendings = h.pendings := by
  unfold mergeEdge
  split <;> rfl

/-- The merged edge is present afterwards. -/
theorem mem_mergeEdge_self (h : GraphDB) (e : GEdge) :
    e ∈ (mergeEdge h e).edges := by
  unfold mergeEdge
  split
  · assumption
  · exact List.mem_append_right _ (List.mem_singleton.mpr rfl)

/-- Edge `MERGE` keeps existing edges. -/
theorem mergeEdge_edges_mono (h : GraphDB) (e e' : GEdge)
    (he : e' ∈ h.edges) : e' ∈ (mergeEdge h e).edges := by
  unfold mergeEdge
  split
  · exact he
  · exact List.mem_append_left _ he

/-- Edge `MERGE` adds at most the merged edge. -/
theorem mergeEdge_edges_sub (h : GraphDB) (e e' : GEdge)
    (he : e' ∈ (mergeEdge h e).edges) : e' ∈ h.edges ∨ e' = e := by
  unfold mergeEdge at he
  split at he
  · exact Or.inl he
  · rcases List.mem_append.mp he with hl | hr
    · exact Or.inl hl
    · exact Or.inr (List.mem_singleton.mp hr)

/-- The edge-merging fold of one type group does not touch nodes. -/
theorem foldlMerge_nodes (gref : GraphDB) (l : List RelRow) :
    ∀ gbase : GraphDB,
    (l.foldl (fun h r => mergeEdge h (edgeOfRow gref r)) gbase).nodes =
      gbase.nodes := by
  induction l with
  | nil => intro gbase; rfl
  | cons a rest ih =>
      intro gbase
      rw [List.foldl_cons, ih, mergeEdge_nodes]

/-- The edge-merging fold of one type group does not touch pendings. -/
theorem foldlMerge_pendings (gref : GraphDB) (l : List RelRow) :
    ∀ gbase : GraphDB,
    (l.foldl (fun h r => mergeEdge h (edgeOfRow gref r)) gbase).pendings =
      gbase.pendings := by
  induction l with
  | nil => intro gbase; rfl
  | cons a rest ih =>
      intro gbase
      rw [List.foldl_cons, ih, mergeEdge_pendings]

/-- The edge-merging fold keeps existing edges. -/
theorem foldlMerge_edges_mono (gref : GraphDB) (l : List RelRow) :
    ∀ (gbase : GraphDB) (e : GEdge), e ∈ gbase.edges →
    e ∈ (l.foldl (fun h r => mergeEdge h (edgeOfRow gref r)) gbase).edges := by
  induction l with
  | nil => intro gbase e he; exact he
  | cons a rest ih =>
      intro gbase e he
      exact ih _ e (mergeEdge_edges_mono _ _ _ he)

/-- Every row of the fold has its edge present afterwards. -/
theorem foldlMerge_mem (gref : GraphDB) (l : List RelRow) :
    ∀ (gbase : GraphDB) (r : RelRow), r ∈ l →
    edgeOfRow gref r ∈
      (l.foldl (fun h r => mergeEdge h (edgeOfRow gref r)) gbase).edges := by
  induction l with
  | nil => intro _ _ h; exact absurd h (List.not_mem_nil _)
  | cons a rest ih =>
      intro gbase r hr
      rcases List.mem_cons.mp hr with rfl | hmem
      · exact foldlMerge_edges_mono gref rest _ _ (mem_mergeEdge_self _ _)
      · exact ih _ r hmem

/-- Every edge after the fold is an old edge or one of the fold's rows. -/
theorem foldlMerge_edges_sub (gref : GraphDB) (l : List RelRow) :
    ∀ (gbase : GraphDB) (e : GEdge),
    e ∈ (l.foldl (fun h r => mergeEdge h (edgeOfRow gref r)) gbase).edges →
    e ∈ gbase.edges ∨ ∃ r ∈ l, e = edgeOfRow gref r := by
  induction l with
  | nil => intro gbase e he; exact Or.inl he
  | cons a rest ih =>
      intro gbase e he
      rcases ih _ e he with hbase | ⟨r, hr, rfl⟩
      · rcases mergeEdge_edges_sub _ _ _ hbase with horig | rfl
        · exact Or.inl horig
        · exact Or.inr ⟨a, List.mem_cons_self a rest, rfl⟩
      · exact Or.inr ⟨r, List.mem_cons_of_mem a hr, rfl⟩

/-- Row matching depends only on the row's endpoint keys. -/
theorem relRowMatches_congr (g : GraphDB) (r r' : RelRow)
    (hs : r'.source_gid = r.source_gid)
    (ht : r'.target_canonical_id = r.target_canonical_id) :
    relRowMatches g r' = relRowMatches g r := by
  unfold relRowMatches
  rw [hs, ht]

end ClaimC3

section ClaimC3b

open IngestionWorker

/-- One type-group batch does not touch nodes. -/
theorem ingestRelGroup_nodes (g : GraphDB) (t : String) (group : List RelRow) :
    (ingestRelGroup g t group).nodes = g.nodes := by
  unfold ingestRelGroup
  exact foldlMerge_nodes g _ g

/-- One type-group batch keeps existing edges. -/
theorem ingestRelGroup_edges_mono (g : GraphDB) (t : String)
    (group : List RelRow) (e : GEdge) (he : e ∈ g.edges) :
    e ∈ (ingestRelGroup g t group).edges := by
  unfold ingestRelGroup
  exact foldlMerge_edges_mono g _ g e he

/-- One type-group batch keeps existing pendings. -/
theorem ingestRelGroup_pendings_mono (g : GraphDB) (t : String)
    (group : List RelRow) (p : GPending) (hp : p ∈ g.pendings) :
    p ∈ (ingestRelGroup g t group).pendings := by
  unfold ingestRelGroup
  refine List.mem_append_left _ ?_
  rw [foldlMerge_pendings g _ g]
  exact hp

/-- Every edge after one type-group batch is an old edge or the merged
edge of a matching row of the group. -/
theorem ingestRelGroup_edges_sub (g : GraphDB) (t : String)
    (group : List RelRow) (e : GEdge)
    (he : e ∈ (ingestRelGroup g t group).edges) :
    e ∈ g.edges ∨
      ∃ r ∈ group, relRowMatches g r = true ∧ e = edgeOfRow g r := by
  unfold ingestRelGroup at he
  rcases foldlMerge_edges_sub g _ g e he with hold | ⟨r, hr, rfl⟩
  · exact Or.inl hold
  · have hm := List.mem_filter.mp hr
    exact Or.inr ⟨r, hm.1, hm.2, rfl⟩

/-- Coverage of one type-group batch: a matching row's edge is merged; a
non-matching row becomes a pending record of the group's type. -/
theorem ingestRelGroup_covers (g : GraphDB) (t : String)
    (group : List RelRow) (r : RelRow) (hr : r ∈ group) :
    (relRowMatches g r = true ∧
      edgeOfRow g r ∈ (ingestRelGroup g t group).edges) ∨
    (relRowMatches g r = false ∧
      (⟨r.source_gid, r.target_canonical_id, t⟩ : GPending) ∈
        (ingestRelGroup g t group).pendings) := by
  by_cases hm : relRowMatches g r = true
  · refine Or.inl ⟨hm, ?_⟩
    unfold ingestRelGroup
    exact foldlMerge_mem g _ g r (List.mem_filter.mpr ⟨hr, hm⟩)
  · have hm' : relRowMatches g r = false := by
      cases h : relRowMatches g r
      · rfl
      · exact absurd h hm
    refine Or.inr ⟨hm', ?_⟩
    have hpair : (r.source_gid, r.target_canonical_id) ∉
        (group.filter (relRowMatches g)).map
          (fun r => (r.source_gid, r.target_canonical_id)) := by
      intro hmem
      rcases List.mem_map.mp hmem with ⟨r', hr', hpr⟩
      have hr'm := (List.mem_filter.mp hr').2
      have : relRowMatches g r' = relRowMatches g r :=
        relRowMatches_congr g r r'
          (congrArg Prod.fst hpr) (congrArg Prod.snd hpr)
      rw [this, hm'] at hr'm
      exact Bool.false_ne_true hr'm
    unfold ingestRelGroup
    refine List.mem_append_right _ ?_
    refine List.mem_map.mpr ⟨r, ?_, rfl⟩
    refine List.mem_filter.mpr ⟨hr, ?_⟩
    exact decide_eq_true hpair

end ClaimC3b

section ClaimC3c

open IngestionWorker

/-- `MATCH` by gid reads only the node set. -/
theorem findByGid_congr (g g' : GraphDB) (h : g.nodes = g'.nodes)
    (x : String) : findByGid g x = findByGid g' x := by
  unfold findByGid
  rw [h]

/-- `MATCH` by canonical_id reads only the node set. -/
theorem findByCid_congr (g g' : GraphDB) (h : g.nodes = g'.nodes)
    (x : String) : findByCid g x = findByCid g' x := by
  unfold findByCid
  rw [h]

/-- Row matching reads only the node set. -/
theorem relRowMatches_nodes_congr (g g' : GraphDB) (h : g.nodes = g'.nodes)
    (r : RelRow) : relRowMatches g r = relRowMatches g' r := by
  unfold relRowMatches
  rw [findByGid_congr g g' h, findByCid_congr g g' h]

/-- The merged edge of a row reads only the node set. -/
theorem edgeOfRow_nodes_congr (g g' : GraphDB) (h : g.nodes = g'.nodes)
    (r : RelRow) : edgeOfRow g r = edgeOfRow g' r := by
  unfold edgeOfRow
  rw [findByCid_congr g g' h]

/-- Both endpoints of an edge exist as stored nodes. -/
def EdgeEndpointsExist (g : GraphDB) (e : GEdge) : Prop :=
  (∃ s ∈ g.nodes, e.source_gid = s.gid) ∧ (∃ tn ∈ g.nodes, e.target_gid = tn.gid)

/-- The type-key fold of `ingest_relationships` does not touch nodes. -/
theorem foldGroups_nodes (rows : List RelRow) (keys : List String) :
    ∀ g : GraphDB,
    (keys.foldl (fun h t =>
      ingestRelGroup h t (rows.filter (fun r => r.rtype = t))) g).nodes =
      g.nodes := by
  induction keys with
  | nil => intro g; rfl
  | cons t rest ih =>
      intro g
      rw [List.foldl_cons, ih, ingestRelGroup_nodes]

/-- The type-key fold keeps existing edges. -/
theorem foldGroups_edges_mono (rows : List RelRow) (keys : List String) :
    ∀ (g : GraphDB) (e : GEdge), e ∈ g.edges →
    e ∈ (keys.foldl (fun h t =>
      ingestRelGroup h t (rows.filter (fun r => r.rtype = t))) g).edges := by
  induction keys with
  | nil => intro _ _ he; exact he
  | cons t rest ih =>
      intro g e he
      exact ih _ e (ingestRelGroup_edges_mono g t _ e he)

/-- The type-key fold keeps existing pendings. -/
theorem foldGroups_pendings_mono (rows : List RelRow) (keys : List String) :
    ∀ (g : GraphDB) (p : GPending), p ∈ g.pendings →
    p ∈ (keys.foldl (fun h t =>
      ingestRelGroup h t (rows.filter (fun r => r.rtype = t))) g).pendings := by
  induction keys with
  | nil => intro _ _ hp; exact hp
  | cons t rest ih =>
      intro g p hp
      exact ih _ p (ingestRelGroup_pendings_mono g t _ p hp)

/-- Coverage through the type-key fold: a row whose type key occurs is
either merged as its matched edge or recorded as a pending. -/
theorem foldGroups_coverage (rows : List RelRow) (r : RelRow)
    (hr : r ∈ rows) (keys : List String) :
    ∀ (g gref : GraphDB), g.nodes = gref.nodes → r.rtype ∈ keys →
    ((relRowMatches gref r = true ∧
      edgeOfRow gref r ∈ (keys.foldl (fun h t =>
        ingestRelGroup h t (rows.filter (fun r => r.rtype = t))) g).edges) ∨
     (relRowMatches gref r = false ∧
      (⟨r.source_gid, r.target_canonical_id, r.rtype⟩ : GPending) ∈
        (keys.foldl (fun h t =>
          ingestRelGroup h t (rows.filter (fun r => r.rtype = t))) g).pendings)) := by
  induction keys with
  | nil => intro g gref _ hk; exact absurd hk (List.not_mem_nil _)
  | cons t rest ih =>
      intro g gref hnodes hk
      by_cases ht : r.rtype = t
      · have hrg : r ∈ rows.filter (fun x => x.rtype = t) :=
          List.mem_filter.mpr ⟨hr, decide_eq_true ht⟩
        rcases ingestRelGroup_covers g t _ r hrg with ⟨hm, he⟩ | ⟨hm, hp⟩
        · refine Or.inl ⟨?_, ?_⟩
          · rw [← relRowMatches_nodes_congr g gref hnodes]; exact hm
          · rw [List.foldl_cons]
            rw [← edgeOfRow_nodes_congr g gref hnodes]
            exact foldGroups_edges_mono rows rest _ _ he
        · refine Or.inr ⟨?_, ?_⟩
          · rw [← relRowMatches_nodes_congr g gref hnodes]; exact hm
          · rw [List.foldl_cons]
            have : (⟨r.source_gid, r.target_canonical_id, r.rtype⟩ : GPending) =
                ⟨r.source_gid, r.target_canonical_id, t⟩ := by rw [ht]
            rw [this]
            exact foldGroups_pendings_mono rows rest _ _ hp
      · have hk' : r.rtype ∈ rest := by
          rcases List.mem_cons.mp hk with h | h
          · exact absurd h ht
          · exact h
        rw [List.foldl_cons]
        exact ih _ gref (by rw [ingestRelGroup_nodes]; exact hnodes) hk'

/-- No-dangling through the type-key fold: every edge present afterwards
was present before the fold's reference graph, or both its endpoints are
stored nodes of it. -/
theorem foldGroups_edges_sub (rows : List RelRow) (keys : List String) :
    ∀ (g gref : GraphDB), g.nodes = gref.nodes →
    (∀ e ∈ g.edges, e ∈ gref.edges ∨ EdgeEndpointsExist gref e) →
    ∀ e ∈ (keys.foldl (fun h t =>
      ingestRelGroup h t (rows.filter (fun r => r.rtype = t))) g).edges,
    e ∈ gref.edges ∨ EdgeEndpointsExist gref e := by
  induction keys with
  | nil => intro g gref _ hinv e he; exact hinv e he
  | cons t rest ih =>
      intro g gref hnodes hinv e he
      rw [List.foldl_cons] at he
      refine ih _ gref (by rw [ingestRelGroup_nodes]; exact hnodes) ?_ e he
      intro e' he'
      rcases ingestRelGroup_edges_sub g t _ e' he' with hold | ⟨r, _, hm, rfl⟩
      · exact hinv e' hold
      · right
        unfold relRowMatches at hm
        have hs := (Bool.and_eq_true _ _).mp hm
        rcases Option.isSome_iff_exists.mp hs.1 with ⟨s, hsfind⟩
        rcases Option.isSome_iff_exists.mp hs.2 with ⟨tn, htfind⟩
        constructor
        · refine ⟨s, ?_, ?_⟩
          · rw [← hnodes]
            exact List.mem_of_find?_eq_some hsfind
          · have := List.find?_some hsfind
            simp only [decide_eq_true_eq] at this
            simp [edgeOfRow, this]
        · refine ⟨tn, ?_, ?_⟩
          · rw [← hnodes]
            exact List.mem_of_find?_eq_some htfind
          · simp [edgeOfRow, htfind]

end ClaimC3c

section ClaimC3d

open IngestionWorker

/-- Claim C3: after `ingest_relationships`, every input row either exists
as a concrete typed edge from the node matched by its `source_gid` to
the node matched by its `target_canonical_id`, or is recorded as a
`PendingRelationship` storing its `source_gid`, `target_canonical_id`
and `type` — no row is silently dropped; and every edge of the resulting
graph is an old edge or connects two stored nodes (no dangling edge is
created). -/
theorem c3_every_relationship_row_edge_or_pending
    (g : GraphDB) (batch : List RelRow) (r : RelRow) (hr : r ∈ batch) :
    ((∃ s, findByGid g r.source_gid = some s ∧
        ∃ t, findByCid g r.target_canonical_id = some t ∧
          (⟨r.source_gid, t.gid, r.rtype⟩ : GEdge) ∈
            (ingest_relationships g batch).edges) ∨
      (⟨r.source_gid, r.target_canonical_id, r.rtype⟩ : GPending) ∈
        (ingest_relationships g batch).pendings) ∧
    (∀ e ∈ (ingest_relationships g batch).edges,
      e ∈ g.edges ∨ EdgeEndpointsExist g e) := by
  constructor
  · have hkey : r.rtype ∈ PythonAnalyzer.dedup (batch.map (·.rtype)) :=
      mem_dedup.mpr (List.mem_map.mpr ⟨r, hr, rfl⟩)
    have hcov := foldGroups_coverage batch r hr _ g g rfl hkey
    unfold ingest_relationships
    rcases hcov with ⟨hm, he⟩ | ⟨_, hp⟩
    · left
      unfold relRowMatches at hm
      have hs := (Bool.and_eq_true _ _).mp hm
      rcases Option.isSome_iff_exists.mp hs.1 with ⟨s, hsfind⟩
      rcases Option.isSome_iff_exists.mp hs.2 with ⟨t, htfind⟩
      refine ⟨s, hsfind, t, htfind, ?_⟩
      have hedge : edgeOfRow g r = ⟨r.source_gid, t.gid, r.rtype⟩ := by
        simp [edgeOfRow, htfind]
      rw [← hedge]
      exact he
    · right
      exact hp
  · intro e he
    unfold ingest_relationships at he
    exact foldGroups_edges_sub batch _ g g rfl (fun e' he' => Or.inl he') e he

/-- Concrete graph for the C3 witness: two nodes, no edges, no pendings. -/
def c3exGraph : GraphDB :=
  ⟨[⟨"gA", "cA", "a", "a.py", "python", ["Function"]⟩,
    ⟨"gB", "cB", "b", "b.py", "python", ["Function"]⟩], [], []⟩

/-- Concrete batch for the C3 witness: one resolvable row and one row
whose target canonical_id matches no node. -/
def c3exBatch : List RelRow :=
  [⟨"gA", "cB", "CALLS"⟩, ⟨"gA", "cMissing", "CALLS"⟩]

/-- Claim C3 witness: the theorem applied to the unresolvable row of the
concrete batch, with its membership hypothesis discharged by computation. -/
theorem c3_witness :
    (⟨"gA", "cMissing", "CALLS"⟩ : RelRow) ∈ c3exBatch ∧
    (((∃ s, findByGid c3exGraph "gA" = some s ∧
        ∃ t, findByCid c3exGraph "cMissing" = some t ∧
          (⟨"gA", t.gid, "CALLS"⟩ : GEdge) ∈
            (ingest_relationships c3exGraph c3exBatch).edges) ∨
      (⟨"gA", "cMissing", "CALLS"⟩ : GPending) ∈
        (ingest_relationships c3exGraph c3exBatch).pendings) ∧
    (∀ e ∈ (ingest_relationships c3exGraph c3exBatch).edges,
      e ∈ c3exGraph.edges ∨ EdgeEndpointsExist c3exGraph e)) :=
  ⟨by decide,
    c3_every_relationship_row_edge_or_pending c3exGraph c3exBatch
      ⟨"gA", "cMissing", "CALLS"⟩ (by decide)⟩

end ClaimC3d

section ClaimC1

open IngestionWorker

/-- An `AnalyzerResult` payload with one relationship whose endpoints
match no stored node (so a pending is produced). -/
def c1exPayload : ResultPayload :=
  { relationships_upserted := [⟨"g1", "c1", "CALLS"⟩] }

/-- Claim C1 evaluated at its failing input: processing the same payload
twice from the empty graph leaves node and edge counts unchanged, but
the second ingestion `CREATE`s a second `PendingRelationship` for the
same unresolved row (the pending insert uses `CREATE`, not `MERGE`), so
the pending count after the second ingestion is 2, not 1 — ingestion is
NOT idempotent when pendings are produced, contradicting the claim that
all three counts are equal. -/
theorem c1_reingestion_duplicates_pendings :
    pendingCount (IngestionWorker.process_message emptyGraph c1exPayload) = 1 ∧
    pendingCount (IngestionWorker.process_message
      (IngestionWorker.process_message emptyGraph c1exPayload) c1exPayload) = 2 ∧
    nodeCount (IngestionWorker.process_message
      (IngestionWorker.process_message emptyGraph c1exPayload) c1exPayload) =
      nodeCount (IngestionWorker.process_message emptyGraph c1exPayload) ∧
    edgeCount (IngestionWorker.process_message
      (IngestionWorker.process_message emptyGraph c1exPayload) c1exPayload) =
      edgeCount (IngestionWorker.process_message emptyGraph c1exPayload) ∧
    pendingCount (IngestionWorker.process_message
      (IngestionWorker.process_message emptyGraph c1exPayload) c1exPayload) ≠
      pendingCount (IngestionWorker.process_message emptyGraph c1exPayload) := by
  refine ⟨rfl, rfl, rfl, rfl, ?_⟩
  intro h
  simp only [show pendingCount (IngestionWorker.process_message
      (IngestionWorker.process_message emptyGraph c1exPayload) c1exPayload) = 2
    from rfl,
    show pendingCount (IngestionWorker.process_message emptyGraph c1exPayload) = 1
    from rfl] at h
  exact absurd h (by decide)

end ClaimC1

section ClaimC2

open IngestionWorker

/-- A graph holding one file containing one class containing one method
(`CONTAINS` edges file→class and class→method), all sharing the file's
`file_path`. -/
def c2exGraph : GraphDB :=
  ⟨[⟨"gf", "cf", "a.py", "a.py", "python", ["File"]⟩,
    ⟨"gc", "cc", "C", "a.py", "python", ["Class"]⟩,
    ⟨"gm", "cm", "m", "a.py", "python", ["Method"]⟩],
   [⟨"gf", "gc", "CONTAINS"⟩, ⟨"gc", "gm", "CONTAINS"⟩],
   []⟩

/-- Claim C2 evaluated at its failing input: deleting the File node only
collects the node and its DIRECT `CONTAINS|DEFINES` children (the Cypher
traverses one step, not transitively), so the method nested two levels
below the file survives — one node with the file's `file_path` remains,
not zero as the claim (and invariant I5) requires. -/
theorem c2_delete_cascade_misses_grandchildren :
    nodesWithFilePath (delete_nodes c2exGraph ["gf"]) "a.py" = 1 ∧
    (⟨"gm", "cm", "m", "a.py", "python", ["Method"]⟩ : GNode) ∈
      (delete_nodes c2exGraph ["gf"]).nodes ∧
    nodesWithFilePath (delete_nodes c2exGraph ["gf"]) "a.py" ≠ 0 := by
  refine ⟨rfl, by decide, ?_⟩
  intro h
  simp only [show nodesWithFilePath (delete_nodes c2exGraph ["gf"]) "a.py" = 1
    from rfl] at h
  exact absurd h (by decide)

end ClaimC2

section ClaimC8

open Resolution

/-- Claim C8: for every `DatabaseQuery` node with a non-empty query, each
table name extracted by `parse_sql_query` that is registered for a
`Table` node yields one edge from the query node to that table whose
type is `MODIFIES_TABLE` when the query contains `UPDATE`, `INSERT` or
`DELETE` (as a word), otherwise `READS_TABLE` when it contains `SELECT`,
otherwise `QUERIES_TABLE`; and each extracted column name registered for
a `Column` node yields a `USES_COLUMN` edge. -/
theorem c8_sql_query_matching (nodes : List GraphNode) (qn : GraphNode)
    (hqn : qn ∈ nodes) (htype : qn.node_type = "DatabaseQuery")
    (hq : getProp qn "query" ≠ "") :
    (∀ t tg, t ∈ (parse_sql_query (getProp qn "query")).tables →
      db_tables nodes t = some tg →
      (⟨qn.global_id, tg, sqlRelType (getProp qn "query"),
        [("heuristic_match", "table_name_in_query")]⟩ : GraphRelationship) ∈
        resolve_cross_language_heuristics nodes) ∧
    (∀ cn cg, cn ∈ (parse_sql_query (getProp qn "query")).columns →
      db_columns nodes cn = some cg →
      (⟨qn.global_id, cg, "USES_COLUMN",
        [("heuristic_match", "column_name_in_query")]⟩ : GraphRelationship) ∈
        resolve_cross_language_heuristics nodes) ∧
    sqlRelType (getProp qn "query") =
      (if containsWord (getProp qn "query") ['u','p','d','a','t','e'] ||
          containsWord (getProp qn "query") ['i','n','s','e','r','t'] ||
          containsWord (getProp qn "query") ['d','e','l','e','t','e'] then
        "MODIFIES_TABLE"
       else if containsWord (getProp qn "query") ['s','e','l','e','c','t'] then
        "READS_TABLE"
       else "QUERIES_TABLE") := by
  have hfilter : qn ∈ nodes.filter (fun n => n.node_type = "DatabaseQuery") :=
    List.mem_filter.mpr ⟨hqn, decide_eq_true htype⟩
  refine ⟨?_, ?_, rfl⟩
  · intro t tg ht hlook
    refine List.mem_append_right _ ?_
    refine List.mem_flatMap.mpr ⟨qn, hfilter, ?_⟩
    show _ ∈ dbEdgesFor nodes qn
    unfold dbEdgesFor
    rw [if_neg hq]
    refine List.mem_append_left _ ?_
    refine List.mem_flatMap.mpr ⟨t, ht, ?_⟩
    unfold tableEdge
    rw [hlook]
    exact List.mem_singleton.mpr rfl
  · intro cn cg hc hlook
    refine List.mem_append_right _ ?_
    refine List.mem_flatMap.mpr ⟨qn, hfilter, ?_⟩
    show _ ∈ dbEdgesFor nodes qn
    unfold dbEdgesFor
    rw [if_neg hq]
    refine List.mem_append_right _ ?_
    refine List.mem_flatMap.mpr ⟨cn, hc, ?_⟩
    unfold columnEdge
    rw [hlook]
    exact List.mem_singleton.mpr rfl

/-- Concrete node set for the C8 witness: one `DatabaseQuery` node with
the query of end-to-end scenario 6, a `Table` node `users` and a
`Column` node `name`. -/
def c8exNodes : List GraphNode :=
  [⟨"q1", "DatabaseQuery", [("query", "SELECT name FROM users WHERE id=?")]⟩,
   ⟨"t1", "Table", [("name", "users")]⟩,
   ⟨"c1", "Column", [("name", "name")]⟩]

/-- Claim C8 witness: the theorem applied to the concrete scenario — the
query reads table `users` (`READS_TABLE`, because the query contains
`SELECT` and no modifier) and uses column `name`. -/
theorem c8_witness :
    ("users" ∈ (parse_sql_query "SELECT name FROM users WHERE id=?").tables) ∧
    ("name" ∈ (parse_sql_query "SELECT name FROM users WHERE id=?").columns) ∧
    sqlRelType "SELECT name FROM users WHERE id=?" = "READS_TABLE" ∧
    (⟨"q1", "t1", "READS_TABLE",
      [("heuristic_match", "table_name_in_query")]⟩ : GraphRelationship) ∈
      resolve_cross_language_heuristics c8exNodes ∧
    (⟨"q1", "c1", "USES_COLUMN",
      [("heuristic_match", "column_name_in_query")]⟩ : GraphRelationship) ∈
      resolve_cross_language_heuristics c8exNodes := by
  have h := c8_sql_query_matching c8exNodes
    ⟨"q1", "DatabaseQuery", [("query", "SELECT name FROM users WHERE id=?")]⟩
    (by decide) rfl (by decide)
  refine ⟨by decide, by decide, rfl, ?_, ?_⟩
  · have := h.1 "users" "t1" (by decide) rfl
    simpa using this
  · have := h.2.1 "name" "c1" (by decide) rfl
    simpa using this

end ClaimC8

section ClaimC9

open Resolution

/-- Claim C9 counterexample: an `ApiCall` whose URL carries scheme and
host (`http://host/api/items`) and an `ApiEndpoint` declared with path
`/api/items` produce NO edge at all — the code strips only the query
string and leading/trailing slashes, never the scheme or host, so the
normalized strings (`http://host/api/items` vs `api/items`) differ and
the claimed `CALLS_API` edge is not emitted. -/
theorem c9_counterexample_scheme_host_not_stripped :
    resolve_cross_language_heuristics
      [⟨"call1", "ApiCall", [("url", "http://host/api/items")]⟩,
       ⟨"ep1", "ApiEndpoint", [("path", "/api/items")]⟩] = [] ∧
    (⟨"call1", "ep1", "CALLS_API",
      [("heuristic_match", "url_path")]⟩ : GraphRelationship) ∉
      resolve_cross_language_heuristics
        [⟨"call1", "ApiCall", [("url", "http://host/api/items")]⟩,
         ⟨"ep1", "ApiEndpoint", [("path", "/api/items")]⟩] := by
  refine ⟨rfl, ?_⟩
  intro h
  rw [show resolve_cross_language_heuristics
      [⟨"call1", "ApiCall", [("url", "http://host/api/items")]⟩,
       ⟨"ep1", "ApiEndpoint", [("path", "/api/items")]⟩] = [] from rfl] at h
  exact List.not_mem_nil _ h

/-- The database pass never emits `CALLS_API`. -/
theorem dbMatchEdges_not_calls_api (nodes : List GraphNode) :
    ∀ e ∈ dbMatchEdges nodes, e.relationship_type ≠ "CALLS_API" := by
  intro e he
  rcases List.mem_flatMap.mp he with ⟨qn, _, hqn⟩
  unfold dbEdgesFor at hqn
  split at hqn
  · exact absurd hqn (List.not_mem_nil e)
  · rcases List.mem_append.mp hqn with hta | hco
    · rcases List.mem_flatMap.mp hta with ⟨t, _, hte⟩
      unfold tableEdge at hte
      split at hte
      · rcases List.mem_singleton.mp hte with rfl
        show sqlRelType _ ≠ "CALLS_API"
        unfold sqlRelType
        split
        · exact fun h => by simp at h
        · split
          · exact fun h => by simp at h
          · exact fun h => by simp at h
      · exact absurd hte (List.not_mem_nil e)
    · rcases List.mem_flatMap.mp hco with ⟨cn, _, hce⟩
      unfold columnEdge at hce
      split at hce
      · rcases List.mem_singleton.mp hce with rfl
        exact fun h => by simp at h
      · exact absurd hce (List.not_mem_nil e)

/-- Claim C9 (amended): the resolver normalizes by stripping only the
query string (the portion from the first `?`) and leading/trailing
slashes — scheme and host are never removed — and a `CALLS_API` edge
with `heuristic_match = "url_path"` is emitted from an `ApiCall` node
exactly when its URL so normalized equals the key of a registered
endpoint (the normalized non-empty path of an `ApiEndpoint` node, later
declarations winning on collision); in particular a URL carrying a
scheme and host does not match an endpoint declared with a bare path. -/
theorem c9_amended_url_matching (nodes : List GraphNode) (c : GraphNode)
    (g : String) (hc : c ∈ nodes) (htype : c.node_type = "ApiCall")
    (hurl : effectiveUrl c ≠ "") :
    (api_endpoints nodes (normalizeCallUrl (effectiveUrl c)) = some g →
      (⟨c.global_id, g, "CALLS_API",
        [("heuristic_match", "url_path")]⟩ : GraphRelationship) ∈
        resolve_cross_language_heuristics nodes) ∧
    (∀ e ∈ resolve_cross_language_heuristics nodes,
      e.relationship_type = "CALLS_API" →
      ∃ c' ∈ nodes, c'.node_type = "ApiCall" ∧ effectiveUrl c' ≠ "" ∧
        e.source_node_global_id = c'.global_id ∧
        api_endpoints nodes (normalizeCallUrl (effectiveUrl c')) =
          some e.target_node_global_id) := by
  constructor
  · intro hlook
    refine List.mem_append_left _ ?_
    refine List.mem_flatMap.mpr
      ⟨c, List.mem_filter.mpr ⟨hc, decide_eq_true htype⟩, ?_⟩
    show _ ∈ apiEdgesFor nodes c
    unfold apiEdgesFor
    rw [if_neg hurl, hlook]
    exact List.mem_singleton.mpr rfl
  · intro e he htyp
    rcases List.mem_append.mp he with hapi | hdb
    · rcases List.mem_flatMap.mp hapi with ⟨c', hc', hec⟩
      have hcmem := List.mem_filter.mp hc'
      unfold apiEdgesFor at hec
      split at hec
      · exact absurd hec (List.not_mem_nil e)
      · split at hec
        · rcases List.mem_singleton.mp hec with rfl
          refine ⟨c', hcmem.1, of_decide_eq_true hcmem.2, ?_, rfl, ?_⟩
          · assumption
          · assumption
        · exact absurd hec (List.not_mem_nil e)
    · exact absurd htyp (dbMatchEdges_not_calls_api nodes e hdb)

/-- Concrete node set for the C9 amended-claim witness: a call whose URL
carries a query string and an endpoint with a decorated path. -/
def c9exNodes : List GraphNode :=
  [⟨"call2", "ApiCall", [("url", "api/items?page=2")]⟩,
   ⟨"ep2", "ApiEndpoint", [("path", "/api/items/")]⟩]

/-- Claim C9 amended-claim witness: both normalize to `api/items`, so the
edge is emitted; every hypothesis is discharged on the concrete data. -/
theorem c9_amended_witness :
    ((⟨"call2", "ApiCall", [("url", "api/items?page=2")]⟩ : GraphNode) ∈
      c9exNodes) ∧
    (effectiveUrl ⟨"call2", "ApiCall", [("url", "api/items?page=2")]⟩ ≠ "") ∧
    api_endpoints c9exNodes "api/items" = some "ep2" ∧
    (⟨"call2", "ep2", "CALLS_API",
      [("heuristic_match", "url_path")]⟩ : GraphRelationship) ∈
      resolve_cross_language_heuristics c9exNodes :=
  ⟨by decide, by decide, rfl,
    (c9_amended_url_matching c9exNodes
      ⟨"call2", "ApiCall", [("url", "api/items?page=2")]⟩ "ep2"
      (by decide) rfl (by decide)).1 rfl⟩

end ClaimC9
